import Mathlib

/-!
Verification of the PreemptiveScheduler coroutine executor.

Shallow embedding of the core of the repository:
  * `src/task_collection.rs` — key packing, the slab/page task collection and
    the generator sweep that yields runnable keys and reaps dropped slots;
  * `src/waker_page.rs`     — the 64-slot atomic bitmap pages and the raw
    waker pointer encoding;
  * `src/executor.rs`       — the executor run loop and its strong/weak/killed
    state machine;
  * `src/runtime.rs`        — `sched_yield`, `handle_timeout` and the
    weak-executor pruning of `run_until_idle`.

Machine integers (`usize`/`u64`, 64-bit targets) are modelled as `Nat` with
explicit `% 2 ^ 64` at every operation that can wrap in Rust (left shifts,
pointer additions).  The bitwise complement `!x` on `u64` is modelled by
`not64`.  Atomics are modelled by plain state passing: the scheduler is
per-CPU and the claims under scrutiny are about the sequential semantics of
the bitmap protocol.
-/

set_option maxRecDepth 8192

namespace PreemptiveScheduler

/-- Bitwise complement on 64-bit words: `!x` in Rust for `x < 2 ^ 64`. -/
def not64 (x : Nat) : Nat := x ^^^ (2 ^ 64 - 1)

/-! ### Key module (`src/task_collection.rs`, `pub mod key`) -/

def PRIORITY_SHIFT : Nat := 58

def TASK_NUM_PER_PRIORITY : Nat := 1 <<< PRIORITY_SHIFT

def MAX_PRIORITY : Nat := 1 <<< 5

def DEFAULT_PRIORITY : Nat := 4

def PAGE_INDEX_SHIFT : Nat := 6

def WAKER_PAGE_SIZE : Nat := 64

/-- `unpack_key`: `(key & 0x3F, (key << 5) >> 11, key >> PRIORITY_SHIFT)`
reassembled in source order `(priority, page_idx, subpage_idx)`.  The `<< 5`
wraps modulo `2 ^ 64` exactly as the Rust `usize` shift does. -/
def unpack_key (key : Nat) : Nat × Nat × Nat :=
  let subpage_idx := key &&& 0x3F
  let page_idx := ((key <<< 5) % 2 ^ 64) >>> 11
  let priority := key >>> PRIORITY_SHIFT
  (priority, page_idx, subpage_idx)

/-- `pack_key`: `priority << PRIORITY_SHIFT | page_idx << PAGE_INDEX_SHIFT | subpage_idx`. -/
def pack_key (priority page_idx subpage_idx : Nat) : Nat :=
  ((priority <<< PRIORITY_SHIFT) % 2 ^ 64) |||
    ((page_idx <<< PAGE_INDEX_SHIFT) % 2 ^ 64) ||| subpage_idx

/-- `unmask_priority`: `key & !(0x1F << PRIORITY_SHIFT)`. -/
def unmask_priority (key : Nat) : Nat :=
  key &&& not64 ((0x1F <<< PRIORITY_SHIFT) % 2 ^ 64)

/-! ### WakerPage (`src/waker_page.rs`)

The source `WakerPage` holds exactly two live `AtomicU64` bitmaps,
`notified` and `dropped` (the `completed` and `borrowed` fields are commented
out in the source and no operation ever touches them, so they are absent from
the embedding, i.e. identically zero). -/

structure WakerPage where
  notified : Nat
  dropped : Nat
deriving DecidableEq

/-- `WakerPage::new_inner`: both bitmaps start at zero. -/
def WakerPage.new_inner : WakerPage := ⟨0, 0⟩

/-- `WakerPage::initialize(idx)`: `notified.fetch_or(1 << idx)` then
`dropped.fetch_and(!(1 << idx))`. -/
def WakerPage.initSlot (p : WakerPage) (idx : Nat) : WakerPage :=
  { notified := p.notified ||| ((1 <<< idx) % 2 ^ 64)
    dropped := p.dropped &&& not64 ((1 <<< idx) % 2 ^ 64) }

/-- `WakerPage::mark_dropped(idx)`: `dropped.fetch_or(1 << idx)`. -/
def WakerPage.mark_dropped (p : WakerPage) (idx : Nat) : WakerPage :=
  { p with dropped := p.dropped ||| ((1 <<< idx) % 2 ^ 64) }

/-- `WakerPage::notify(offset)`: `notified.fetch_or(1 << offset)`. -/
def WakerPage.notify (p : WakerPage) (offset : Nat) : WakerPage :=
  { p with notified := p.notified ||| ((1 <<< offset) % 2 ^ 64) }

/-- `WakerPage::take_notified()`: swap `notified` with 0 and mask the old
value by `!dropped`; returns the masked snapshot and the new page state. -/
def WakerPage.take_notified (p : WakerPage) : Nat × WakerPage :=
  (p.notified &&& not64 p.dropped, { p with notified := 0 })

/-- `WakerPage::take_dropped()`: swap `dropped` with 0. -/
def WakerPage.take_dropped (p : WakerPage) : Nat × WakerPage :=
  (p.dropped, { p with dropped := 0 })

/-- `WakerPage::clear(idx)`: clear bit `idx` in both bitmaps. -/
def WakerPage.clear (p : WakerPage) (idx : Nat) : WakerPage :=
  { notified := p.notified &&& not64 ((1 <<< idx) % 2 ^ 64)
    dropped := p.dropped &&& not64 ((1 <<< idx) % 2 ^ 64) }

/-! ### Raw waker pointer encoding (`WakerRef::into_raw` / `WakerRef::form_raw`)

A `WakerRef` is a 64-byte-aligned page address plus a slot index `< 64`
(`into_raw` asserts exactly these two conditions). -/

/-- `WakerRef::into_raw`: the data pointer is `page_ptr + idx` (usize add). -/
def WakerRef.into_raw (page idx : Nat) : Nat := (page + idx) % 2 ^ 64

/-- `WakerRef::form_raw`: `idx = data & 0x3F`, `page = data & !0x3F`;
returned as `(page, idx)` matching the struct field order. -/
def WakerRef.form_raw (data : Nat) : Nat × Nat :=
  (data &&& not64 0x3F, data &&& 0x3F)

/-! ### FutureCollection (`src/task_collection.rs`)

The pinned slab is modelled by its occupancy: `slab : List Bool`, `true`
meaning the slot holds a (pinned) future.  `unicycle::pin_slab::PinSlab`
allocates some free slot (or appends) on `insert` and ignores a `remove` of a
vacant or out-of-range key; the model allocates the first free slot, which is
one admissible slab policy, and makes `remove` of an absent key a no-op. -/

/-- Slab insertion: occupy the first free slot, or append a new one.
Returns the new slab and the chosen key. -/
def slabInsert : List Bool → List Bool × Nat
  | [] => ([true], 0)
  | b :: rest =>
    if b then
      let r := slabInsert rest
      (b :: r.1, r.2 + 1)
    else (true :: rest, 0)

/-- Slab removal: vacate slot `key`; no-op for out-of-range keys
(`PinSlab::remove` returns `false` without touching anything there). -/
def slabRemove (slab : List Bool) (key : Nat) : List Bool :=
  if key < slab.length then slab.set key false else slab

/-- The `while key >= self.pages.len() * WAKER_PAGE_SIZE { self.pages.push(WakerPage::new()) }`
loop of `FutureCollection::insert`. -/
def growPages (pages : List WakerPage) (key : Nat) : List WakerPage :=
  if pages.length * WAKER_PAGE_SIZE ≤ key then
    growPages (pages ++ [WakerPage.new_inner]) key
  else pages
termination_by key + WAKER_PAGE_SIZE - pages.length * WAKER_PAGE_SIZE
decreasing_by
  simp only [List.length_append, List.length_cons, List.length_nil, WAKER_PAGE_SIZE] at *
  omega

structure FutureCollection where
  slab : List Bool
  pages : List WakerPage
deriving DecidableEq

/-- `FutureCollection::insert(future)`: allocate a slab slot, grow the page
vector while the key is out of page range, then `initialize` the slot found
through `unpack_key` on the raw slab key.  Returns the raw key. -/
def FutureCollection.insert (fc : FutureCollection) : FutureCollection × Nat :=
  let s := slabInsert fc.slab
  let pages1 := growPages fc.pages s.2
  let u := unpack_key s.2
  let page := pages1.getD u.2.1 WakerPage.new_inner
  ({ slab := s.1, pages := pages1.set u.2.1 (page.initSlot u.2.2) }, s.2)

/-- `FutureCollection::remove(key, _)`: `page.clear(subpage_idx)` for the page
located through `unpack_key key`, then `slab.remove(key)` with the *same*
`key` value. -/
def FutureCollection.remove (fc : FutureCollection) (key : Nat) : FutureCollection :=
  let u := unpack_key key
  let page := fc.pages.getD u.2.1 WakerPage.new_inner
  { slab := slabRemove fc.slab key
    pages := fc.pages.set u.2.1 (page.clear u.2.2) }

/-! ### TaskCollection (`src/task_collection.rs`)

The source keeps `MAX_PRIORITY` buckets but `priority_add_task` asserts
`priority == DEFAULT_PRIORITY` and the generator only ever scans
`DEFAULT_PRIORITY`, so the model carries the single live bucket. -/

structure TaskCollection where
  fc : FutureCollection
  task_num : Nat
deriving DecidableEq

/-- `TaskCollection::priority_add_task(DEFAULT_PRIORITY, future)`:
insert into the bucket, `task_num += 1`, return
`key | (priority << PRIORITY_SHIFT)`. -/
def TaskCollection.priority_add_task (tc : TaskCollection) : TaskCollection × Nat :=
  let r := tc.fc.insert
  ({ fc := r.1, task_num := tc.task_num + 1 },
   r.2 ||| ((DEFAULT_PRIORITY <<< PRIORITY_SHIFT) % 2 ^ 64))

/-- `TaskCollection::add_task(future)` forwards to `priority_add_task` at
`DEFAULT_PRIORITY`. -/
def TaskCollection.add_task (tc : TaskCollection) : TaskCollection × Nat :=
  tc.priority_add_task

/-- `TaskCollection::remove_task(key)`: remove under `unmask_priority`, then
`task_num -= 1`.  (This public path is *not* the one the generator sweep
takes.) -/
def TaskCollection.remove_task (tc : TaskCollection) (key : Nat) : TaskCollection :=
  { fc := tc.fc.remove (unmask_priority key), task_num := tc.task_num - 1 }

/-- Effect of `WakerRef::wake_by_ref` for the waker of `(page_idx, idx)`:
`page.notify(idx)`, unconditionally. -/
def TaskCollection.wake_by_ref (tc : TaskCollection) (page_idx idx : Nat) : TaskCollection :=
  { tc with fc := { tc.fc with
      pages := tc.fc.pages.set page_idx
        ((tc.fc.pages.getD page_idx WakerPage.new_inner).notify idx) } }

/-- Effect of `WakerRef::drop_by_ref` for the drop handle of `(page_idx, idx)`:
`page.mark_dropped(idx)`. -/
def TaskCollection.drop_by_ref (tc : TaskCollection) (page_idx idx : Nat) : TaskCollection :=
  { tc with fc := { tc.fc with
      pages := tc.fc.pages.set page_idx
        ((tc.fc.pages.getD page_idx WakerPage.new_inner).mark_dropped idx) } }

/-- One page step of the `TaskCollection::generator` sweep: take both
snapshots (`page.take_notified()` then `page.take_dropped()`), and for each
set bit of the dropped snapshot call `inner.remove(pack_key(priority, page_idx,
subpage_idx), true)` — with the full packed key, and without touching
`task_num`, exactly as the source does.  Returns the new collection and the
notified snapshot (the set whose keys the generator yields for polling). -/
def TaskCollection.sweep_page (tc : TaskCollection) (page_idx : Nat) :
    TaskCollection × Nat :=
  let page := tc.fc.pages.getD page_idx WakerPage.new_inner
  let tn := page.take_notified
  let td := tn.2.take_dropped
  let tc1 : TaskCollection :=
    { tc with fc := { tc.fc with pages := tc.fc.pages.set page_idx td.2 } }
  let tc2 := (List.range 64).foldl
    (fun acc sl =>
      if td.1.testBit sl then
        { acc with fc := acc.fc.remove (pack_key DEFAULT_PRIORITY page_idx sl) }
      else acc) tc1
  (tc2, tn.1)

/-! ### Executor (`src/executor.rs`) -/

inductive ExecutorState
  | STRONG
  | WEAK
  | KILLED
  | UNUSED
deriving DecidableEq

/-- The executor fields the run loop reads and writes. -/
structure ExecutorM where
  state : ExecutorState
  task_id : Nat
deriving DecidableEq

/-- One observation of `task_collection.take_task()` inside `Executor::run`:
either a task (with the outcome its poll will produce), or `None` together
with the `task_num` / `weak_executor_num` the idle branch then reads from the
runtime. -/
inductive TakeOutcome
  | got (id : Nat) (ready : Bool)
  | empty (task_num weak_executor_num : Nat)
deriving DecidableEq

def TakeOutcome.isGot : TakeOutcome → Bool
  | .got _ _ => true
  | .empty _ _ => false

/-- Externally visible actions of `Executor::run`. -/
inductive ExecEvent
  | poll (id : Nat)
  | dropTask (id : Nat)
  | yieldToRuntime
  | waitForInterrupt
deriving DecidableEq

def ExecEvent.isPoll : ExecEvent → Bool
  | .poll _ => true
  | _ => false

/-- `Executor::run`, driven by a finite schedule of `take_task` observations.
On `Some(..)`: set `task_id`, poll, reset `task_id`, `drop_by_ref` on
`Ready`, and if the state is `WEAK` set it to `KILLED` and return.  On `None`:
if `cfg!(feature = "baremetal-test") && task_num == 0` yield to the runtime,
else if `weak_executor != 0` yield to the runtime, else `wait_for_interrupt()`;
in every `None` case continue the loop. -/
def Executor.run (baremetal : Bool) :
    ExecutorM → List TakeOutcome → List ExecEvent × ExecutorM
  | s, [] => ([], s)
  | s, .got id ready :: rest =>
    let s1 : ExecutorM := { s with task_id := 0 }
    let evs := ExecEvent.poll id ::
      (if ready then [ExecEvent.dropTask id] else [])
    if s1.state = ExecutorState.WEAK then
      (evs, { s1 with state := ExecutorState.KILLED })
    else
      let r := Executor.run baremetal s1 rest
      (evs ++ r.1, r.2)
  | s, .empty task_num weak_num :: rest =>
    let ev :=
      if baremetal && task_num == 0 then ExecEvent.yieldToRuntime
      else if weak_num != 0 then ExecEvent.yieldToRuntime
      else ExecEvent.waitForInterrupt
    let r := Executor.run baremetal s rest
    (ev :: r.1, r.2)

/-- The weak-executor pruning of `run_until_idle`:
`weak_executors.retain(|e| e.is_some() && !e.as_ref().unwrap().killed())`. -/
def pruneWeak (l : List (Option ExecutorM)) : List (Option ExecutorM) :=
  l.filter fun o =>
    match o with
    | some e => !(e.state == ExecutorState.KILLED)
    | none => false

/-! ### Runtime (`src/runtime.rs`) -/

/-- What `sched_yield` reads of an executor: its saved context address and
the id of the task it is currently polling (`0` when idle between polls). -/
structure ExecutorHandle where
  ctx : Nat
  task_id : Nat
deriving DecidableEq

structure RuntimeM where
  task_collection : TaskCollection
  weak_executors : List (Option ExecutorHandle)
  current_executor : Option ExecutorHandle
  context : Nat
deriving DecidableEq

/-- `sched_yield()`: if `current_executor` is `Some(e)`, perform
`switch(e.context, runtime.context)`; otherwise return having touched
nothing.  The performed switch (if any) is returned alongside the runtime
state. -/
def sched_yield (rt : RuntimeM) : RuntimeM × Option (Nat × Nat) :=
  match rt.current_executor with
  | some e => (rt, some (e.ctx, rt.context))
  | none => (rt, none)

/-- `handle_timeout()` wraps `sched_yield()` in `run_with_intr_saved_off!`;
the interrupt masking has no effect on the sequential state. -/
def handle_timeout (rt : RuntimeM) : RuntimeM × Option (Nat × Nat) :=
  sched_yield rt

/-! ### Concrete execution used by the C2 / C3 scenarios

One task is spawned, polled to completion (the executor's `drop_by_ref` fires
when the poll returns `Ready`), the generator sweep then reaps the dropped
bit, and finally a surviving waker clone fires a late `wake_by_ref`. -/

def tcEmpty : TaskCollection := { fc := { slab := [], pages := [] }, task_num := 0 }

def tcAfterAdd : TaskCollection := tcEmpty.add_task.1

def tcAfterPoll : TaskCollection := (tcAfterAdd.sweep_page 0).1

def tcAfterDrop : TaskCollection := tcAfterPoll.drop_by_ref 0 0

def tcAfterReap : TaskCollection := (tcAfterDrop.sweep_page 0).1

def tcAfterLateWake : TaskCollection := tcAfterReap.wake_by_ref 0 0

/-- A runtime whose current executor is installed but idle between polls
(`task_id == 0`), as `run_until_idle` leaves it before the executor first
calls `take_task`. -/
def rtIdleExecutor : RuntimeM :=
  { task_collection := tcEmpty
    weak_executors := []
    current_executor := some { ctx := 7, task_id := 0 }
    context := 9 }

/-- A runtime with no current executor. -/
def rtNoExecutor : RuntimeM :=
  { task_collection := tcEmpty
    weak_executors := []
    current_executor := none
    context := 5 }

/-! ## Helper lemmas -/

theorem getD_set_self {α : Type _} :
    ∀ (l : List α) (i : Nat) (a d : α), i < l.length → (l.set i a).getD i d = a
  | [], i, _, _, h => by simp at h
  | _ :: _, 0, _, _, _ => rfl
  | x :: xs, i + 1, a, d, h => by
    simpa using getD_set_self xs i a d (by simpa using h)

theorem growPages_length_aux :
    ∀ (n : Nat) (pages : List WakerPage) (key : Nat),
      key + 64 ≤ pages.length * 64 + n →
      (growPages pages key).length = max pages.length (key / 64 + 1) := by
  intro n
  induction n with
  | zero =>
    intro pages key h
    have hc : ¬ pages.length * WAKER_PAGE_SIZE ≤ key := by
      simp only [WAKER_PAGE_SIZE]; omega
    unfold growPages
    rw [if_neg hc]
    simp only [WAKER_PAGE_SIZE] at hc
    omega
  | succ n ih =>
    intro pages key h
    by_cases hc : pages.length * WAKER_PAGE_SIZE ≤ key
    · unfold growPages
      rw [if_pos hc]
      have h2 : key + 64 ≤ (pages ++ [WakerPage.new_inner]).length * 64 + n := by
        simp only [List.length_append, List.length_cons, List.length_nil]
        omega
      rw [ih _ _ h2]
      simp only [List.length_append, List.length_cons, List.length_nil,
        WAKER_PAGE_SIZE] at hc ⊢
      omega
    · unfold growPages
      rw [if_neg hc]
      simp only [WAKER_PAGE_SIZE] at hc
      omega

theorem growPages_length (pages : List WakerPage) (key : Nat) :
    (growPages pages key).length = max pages.length (key / 64 + 1) :=
  growPages_length_aux (key + 64) pages key (by omega)

theorem growPages_unfold (pages : List WakerPage) (key : Nat) :
    growPages pages key =
      if pages.length * WAKER_PAGE_SIZE ≤ key then
        growPages (pages ++ [WakerPage.new_inner]) key
      else pages := by
  rw [growPages.eq_def]

theorem growPages_nil_zero : growPages [] 0 = [WakerPage.new_inner] := by
  rw [growPages_unfold]
  norm_num [WAKER_PAGE_SIZE]
  rw [growPages_unfold]
  norm_num [WAKER_PAGE_SIZE]

theorem tcAfterAdd_eq : tcAfterAdd = ⟨⟨[true], [⟨1, 0⟩]⟩, 1⟩ := by
  have h : growPages [] 0 = [WakerPage.new_inner] := growPages_nil_zero
  simp only [tcAfterAdd, tcEmpty, TaskCollection.add_task,
    TaskCollection.priority_add_task, FutureCollection.insert, slabInsert, h]
  decide

theorem slabInsert_getD (s : List Bool) :
    (slabInsert s).1.getD (slabInsert s).2 false = true := by
  induction s with
  | nil => rfl
  | cons b rest ih =>
    cases b
    · simp [slabInsert]
    · simpa [slabInsert] using ih

theorem shiftLeft_one_mod (m : Nat) (hm : m < 64) :
    (1 <<< m) % 2 ^ 64 = 2 ^ m := by
  rw [Nat.shiftLeft_eq, one_mul]
  exact Nat.mod_eq_of_lt (Nat.pow_lt_pow_right (by norm_num) hm)

theorem testBit_or_shift_self (x m : Nat) (hm : m < 64) :
    (x ||| ((1 <<< m) % 2 ^ 64)).testBit m = true := by
  rw [shiftLeft_one_mod m hm]
  simp [Nat.testBit_or, Nat.testBit_two_pow_self]

theorem testBit_and_not_shift_self (x m : Nat) (hm : m < 64) :
    (x &&& not64 ((1 <<< m) % 2 ^ 64)).testBit m = false := by
  rw [shiftLeft_one_mod m hm]
  have h1 : Nat.testBit (2 ^ 64 - 1) m = true := by
    rw [Nat.testBit_two_pow_sub_one]
    simpa using hm
  rw [not64, Nat.testBit_and, Nat.testBit_xor, Nat.testBit_two_pow_self, h1]
  simp

theorem and_63_eq_mod (x : Nat) : x &&& 63 = x % 64 := by
  have h := Nat.and_pow_two_sub_one_eq_mod x 6
  norm_num at h
  exact h

theorem unpack_key_small {k : Nat} (hk : k < 2 ^ 58) :
    unpack_key k = (0, k / 64, k % 64) := by
  unfold unpack_key
  simp only [PRIORITY_SHIFT]
  refine Prod.ext ?_ (Prod.ext ?_ ?_)
  · show k >>> 58 = 0
    rw [Nat.shiftRight_eq_div_pow]
    exact Nat.div_eq_of_lt hk
  · show ((k <<< 5) % 2 ^ 64) >>> 11 = k / 64
    rw [Nat.shiftLeft_eq, Nat.shiftRight_eq_div_pow]
    omega
  · show k &&& 63 = k % 64
    exact and_63_eq_mod k

theorem default_priority_shift :
    (DEFAULT_PRIORITY <<< PRIORITY_SHIFT) % 2 ^ 64 = 2 ^ 60 := by
  norm_num [DEFAULT_PRIORITY, PRIORITY_SHIFT, Nat.shiftLeft_eq]

theorem unpack_key_default {k : Nat} (hk : k < 2 ^ 58) :
    unpack_key (k ||| ((DEFAULT_PRIORITY <<< PRIORITY_SHIFT) % 2 ^ 64)) =
      (DEFAULT_PRIORITY, k / 64, k % 64) := by
  rw [default_priority_shift]
  have hor : k ||| 2 ^ 60 = 2 ^ 60 + k := by
    have h := Nat.mul_add_lt_is_or (i := 60) (b := k)
      (lt_of_lt_of_le hk (by norm_num)) 1
    rw [mul_one] at h
    rw [Nat.or_comm]
    exact h.symm
  rw [hor]
  unfold unpack_key
  simp only [PRIORITY_SHIFT, DEFAULT_PRIORITY]
  refine Prod.ext ?_ (Prod.ext ?_ ?_)
  · show (2 ^ 60 + k) >>> 58 = 4
    rw [Nat.shiftRight_eq_div_pow]
    omega
  · show (((2 ^ 60 + k) <<< 5) % 2 ^ 64) >>> 11 = k / 64
    rw [Nat.shiftLeft_eq, Nat.shiftRight_eq_div_pow]
    omega
  · show (2 ^ 60 + k) &&& 63 = k % 64
    rw [and_63_eq_mod]
    omega

theorem and_not64_63 (x : Nat) (hx : x < 2 ^ 64) :
    x &&& not64 63 = 64 * (x / 64) := by
  have hmask : not64 63 = (2 ^ 58 - 1) <<< 6 := by decide
  have hrhs : 64 * (x / 64) = (x >>> 6) <<< 6 := by
    rw [Nat.shiftLeft_eq, Nat.shiftRight_eq_div_pow]
    norm_num
    exact Nat.mul_comm 64 (x / 64)
  rw [hmask, hrhs]
  apply Nat.eq_of_testBit_eq
  intro j
  rw [Nat.testBit_and, Nat.testBit_shiftLeft, Nat.testBit_shiftLeft,
    Nat.testBit_shiftRight, Nat.testBit_two_pow_sub_one]
  by_cases hj : 6 ≤ j
  · have h6 : 6 + (j - 6) = j := by omega
    rw [h6]
    by_cases hj64 : j < 64
    · have hlt : j - 6 < 58 := by omega
      simp [hj, hlt]
    · have hxj : x.testBit j = false := by
        apply Nat.testBit_lt_two_pow
        exact lt_of_lt_of_le hx (Nat.pow_le_pow_right (by norm_num) (by omega))
      simp [hxj]
  · simp [hj]

/-! ## Claims -/

/-- Claim C1.  The claimed key round-trip
`unpack_key (pack_key p pg sl) = (p, pg, sl)` for all `p < MAX_PRIORITY`,
`pg < 2 ^ 52`, `sl < 64` fails on the code: `unpack_key` recovers the page
index as `(key << 5) >> 11`, which keeps bit 58 of the key — the lowest
priority bit — as bit 52 of the page index.  At the in-range input
`p = 1, pg = 0, sl = 0` the code returns page index `2 ^ 52` instead
of `0`. -/
theorem c1_key_roundtrip_fails_on_odd_priority :
    1 < MAX_PRIORITY ∧
    unpack_key (pack_key 1 0 0) = (1, 2 ^ 52, 0) ∧
    unpack_key (pack_key 1 0 0) ≠ (1, 0, 0) := by
  decide

/-- Claim C2.  `wake_by_ref` after `drop_by_ref` is *not* always a no-op in
the code: `WakerRef::wake_by_ref` sets the notified bit unconditionally.
While the dropped bit is still set the wake is masked out by
`take_notified` (first conjunct), but once the generator sweep has consumed
the dropped bit (`take_dropped`) and reaped the slot, a late wake through a
surviving waker clone makes the slot runnable again (second conjunct), and
the slab entry is still occupied (third conjunct — see C3), so the completed
task would be yielded and polled again. -/
theorem c2_wake_after_drop_resurrects_slot :
    ((tcAfterDrop.wake_by_ref 0 0).sweep_page 0).2.testBit 0 = false ∧
    (tcAfterLateWake.sweep_page 0).2.testBit 0 = true ∧
    tcAfterLateWake.fc.slab.getD 0 false = true := by
  simp only [tcAfterLateWake, tcAfterReap, tcAfterDrop, tcAfterPoll, tcAfterAdd_eq]
  decide

/-- Claim C3.  The generator's reap of a dropped slot does *not* behave as
claimed: starting from one task (`task_num = 1`, slab slot 0 occupied,
dropped bit 0 set), the sweep clears the page bits but passes the full
packed key `pack_key(4, 0, 0) = 2 ^ 60` to `FutureCollection::remove`
without `unmask_priority`, so `slab.remove` misses the entry, and it never
decrements `task_num`. -/
theorem c3_reap_keeps_slab_entry_and_task_count :
    tcAfterDrop.task_num = 1 ∧
    tcAfterDrop.fc.slab = [true] ∧
    (tcAfterDrop.fc.pages.getD 0 WakerPage.new_inner).dropped.testBit 0 = true ∧
    tcAfterReap.fc.pages = [WakerPage.new_inner] ∧
    tcAfterReap.fc.slab = [true] ∧
    tcAfterReap.task_num = 1 := by
  simp only [tcAfterReap, tcAfterDrop, tcAfterPoll, tcAfterAdd_eq]
  decide

/-- Claim C4.  `add` installs the future in a slab slot at
`DEFAULT_PRIORITY`: it occupies the slot chosen by the slab, grows the page
vector to `max len (key / 64 + 1)` pages (one new page per 64 slots), sets
the slot's notified bit and clears its dropped bit, increments `task_num` by
one, and returns the composite key `key | (DEFAULT_PRIORITY << 58)` whose
unpacked page index is `key / 64` and slot index `key % 64`. -/
theorem c4_add_task_spec (tc : TaskCollection)
    (hk : (slabInsert tc.fc.slab).2 < 2 ^ 58) :
    (TaskCollection.add_task tc).1.task_num = tc.task_num + 1 ∧
    (TaskCollection.add_task tc).2 =
      (slabInsert tc.fc.slab).2 |||
        ((DEFAULT_PRIORITY <<< PRIORITY_SHIFT) % 2 ^ 64) ∧
    unpack_key (TaskCollection.add_task tc).2 =
      (DEFAULT_PRIORITY, (slabInsert tc.fc.slab).2 / 64,
        (slabInsert tc.fc.slab).2 % 64) ∧
    (TaskCollection.add_task tc).1.fc.pages.length =
      max tc.fc.pages.length ((slabInsert tc.fc.slab).2 / 64 + 1) ∧
    ((TaskCollection.add_task tc).1.fc.pages.getD
        ((slabInsert tc.fc.slab).2 / 64) WakerPage.new_inner).notified.testBit
      ((slabInsert tc.fc.slab).2 % 64) = true ∧
    ((TaskCollection.add_task tc).1.fc.pages.getD
        ((slabInsert tc.fc.slab).2 / 64) WakerPage.new_inner).dropped.testBit
      ((slabInsert tc.fc.slab).2 % 64) = false ∧
    (TaskCollection.add_task tc).1.fc.slab.getD (slabInsert tc.fc.slab).2 false =
      true := by
  have hu := unpack_key_small hk
  have hidx : (slabInsert tc.fc.slab).2 / 64 <
      (growPages tc.fc.pages (slabInsert tc.fc.slab).2).length := by
    rw [growPages_length]
    have h64 : (slabInsert tc.fc.slab).2 % 64 < 64 := Nat.mod_lt _ (by norm_num)
    omega
  simp only [TaskCollection.add_task, TaskCollection.priority_add_task,
    FutureCollection.insert, hu]
  refine ⟨trivial, trivial, unpack_key_default hk, ?_, ?_, ?_, slabInsert_getD _⟩
  · simp [List.length_set, growPages_length]
  · rw [getD_set_self _ _ _ _ hidx]
    exact testBit_or_shift_self _ _ (Nat.mod_lt _ (by norm_num))
  · rw [getD_set_self _ _ _ _ hidx]
    exact testBit_and_not_shift_self _ _ (Nat.mod_lt _ (by norm_num))

/-- Witness for C4 at the empty collection. -/
theorem c4_witness :
    (slabInsert tcEmpty.fc.slab).2 < 2 ^ 58 ∧
    (TaskCollection.add_task tcEmpty).1.task_num = tcEmpty.task_num + 1 :=
  ⟨by decide, (c4_add_task_spec tcEmpty (by decide)).1⟩

/-- Claim C5.  `take_notified` swaps the notified bitmap to 0 and returns
the prior value masked by the complement of `dropped` (the `borrowed`
bitmap is commented out in the source, i.e. identically zero, so the
claimed mask `~dropped & ~borrowed` degenerates to `~dropped`): a bit whose
slot is marked dropped at the time of the call is never present in the
returned value, and the dropped bitmap is left unchanged. -/
theorem c5_take_notified_spec (p : WakerPage) (i : Nat) (hi : i < 64) :
    p.take_notified.1 = p.notified &&& not64 p.dropped ∧
    p.take_notified.2.notified = 0 ∧
    p.take_notified.2.dropped = p.dropped ∧
    (p.dropped.testBit i = true → p.take_notified.1.testBit i = false) ∧
    (p.dropped.testBit i = false →
      p.take_notified.1.testBit i = p.notified.testBit i) := by
  have h1 : Nat.testBit (2 ^ 64 - 1) i = true := by
    rw [Nat.testBit_two_pow_sub_one]
    simpa using hi
  refine ⟨rfl, rfl, rfl, ?_, ?_⟩
  · intro h
    show (p.notified &&& not64 p.dropped).testBit i = false
    rw [not64, Nat.testBit_and, Nat.testBit_xor, h, h1]
    simp
  · intro h
    show (p.notified &&& not64 p.dropped).testBit i = p.notified.testBit i
    rw [not64, Nat.testBit_and, Nat.testBit_xor, h, h1]
    simp

/-- Witness for C5: with `notified = 5`, `dropped = 2`, bit 1 is dropped and
absent from the snapshot. -/
theorem c5_witness :
    (1 : Nat) < 64 ∧ (WakerPage.mk 5 2).dropped.testBit 1 = true ∧
    (WakerPage.mk 5 2).take_notified.1.testBit 1 = false :=
  ⟨by decide, by decide,
    (c5_take_notified_spec ⟨5, 2⟩ 1 (by decide)).2.2.2.1 (by decide)⟩

/-- Claim C6 (as stated) is false on the code: `handle_timeout` reduces to
`sched_yield`, which switches whenever `current_executor` is `Some` — it
never consults `task_id`.  Here the current executor has `task_id = 0`
(no task in progress) and the switch is performed anyway. -/
theorem c6_counterexample_switch_without_polling :
    Option.map ExecutorHandle.task_id rtIdleExecutor.current_executor =
      some 0 ∧
    (handle_timeout rtIdleExecutor).2 = some (7, 9) := by
  decide

/-- Claim C6 (amended): `handle_timeout` performs the executor-to-runtime
switch exactly when the runtime has a current executor, regardless of
whether that executor is polling a task; when `current_executor` is `None`
it effects nothing. -/
theorem c6_handle_timeout_switch_iff_current_executor (rt : RuntimeM) :
    (handle_timeout rt).2.isSome = rt.current_executor.isSome ∧
    (handle_timeout rt).1 = rt ∧
    (∀ e, rt.current_executor = some e →
      (handle_timeout rt).2 = some (e.ctx, rt.context)) := by
  refine ⟨?_, ?_, ?_⟩
  · cases h : rt.current_executor <;> simp [handle_timeout, sched_yield, h]
  · cases h : rt.current_executor <;> simp [handle_timeout, sched_yield, h]
  · intro e he
    simp [handle_timeout, sched_yield, he]

/-- Witness for the amended C6. -/
theorem c6_amended_witness :
    rtIdleExecutor.current_executor = some ⟨7, 0⟩ ∧
    (handle_timeout rtIdleExecutor).2 = some (7, 9) :=
  ⟨rfl,
    (c6_handle_timeout_switch_iff_current_executor rtIdleExecutor).2.2 ⟨7, 0⟩ rfl⟩

/-- Claim C10.  `sched_yield` with no current executor returns without
performing any switch and leaves the runtime state (task collection, weak
executors, current executor, context) unchanged. -/
theorem c10_sched_yield_no_current_executor_noop (rt : RuntimeM)
    (h : rt.current_executor = none) :
    sched_yield rt = (rt, none) := by
  simp [sched_yield, h]

/-- Witness for C10. -/
theorem c10_witness :
    rtNoExecutor.current_executor = none ∧
    sched_yield rtNoExecutor = (rtNoExecutor, none) :=
  ⟨rfl, c10_sched_yield_no_current_executor_noop rtNoExecutor rfl⟩

/-- Claim C9.  The raw waker pointer encoding round-trips: for a 64-byte
aligned page address and a slot index below 64, `form_raw` applied to the
data pointer produced by `into_raw` recovers exactly the same page address
and index (the masks `0x3F` and `!0x3F` separate what the addition
packed). -/
theorem c9_waker_raw_roundtrip (page idx : Nat) (hp : page < 2 ^ 64)
    (ha : page % 64 = 0) (hi : idx < 64) :
    WakerRef.form_raw (WakerRef.into_raw page idx) = (page, idx) := by
  have hsum : page + idx < 2 ^ 64 := by omega
  have hraw : WakerRef.into_raw page idx = page + idx := Nat.mod_eq_of_lt hsum
  unfold WakerRef.form_raw
  rw [hraw]
  refine Prod.ext ?_ ?_
  · show (page + idx) &&& not64 63 = page
    rw [and_not64_63 _ hsum]
    omega
  · show (page + idx) &&& 63 = idx
    rw [and_63_eq_mod]
    omega

/-- Witness for C9 at page address 128, index 3. -/
theorem c9_witness :
    (128 : Nat) < 2 ^ 64 ∧ (128 : Nat) % 64 = 0 ∧ (3 : Nat) < 64 ∧
    WakerRef.form_raw (WakerRef.into_raw 128 3) = (128, 3) :=
  ⟨by decide, by decide, by decide,
    c9_waker_raw_roundtrip 128 3 (by decide) (by decide) (by decide)⟩

/-- Claim C7.  An executor whose state is `WEAK` stays `WEAK` until it
completes exactly one poll: over any schedule of `take_task` outcomes the
run loop emits at most one poll event; if the schedule contains a task, the
run returns immediately after that single poll with state `KILLED` (so a
weak executor never polls a second task); if it never does, the executor
stays as it was.  Moreover the scheduler-loop `retain` keeps no `KILLED`
entry in the weak-executor list. -/
theorem c7_weak_executor_polls_once (bm : Bool) (tr : List TakeOutcome)
    (s : ExecutorM) (h : s.state = ExecutorState.WEAK) :
    ((Executor.run bm s tr).1.countP ExecEvent.isPoll ≤ 1 ∧
      (tr.any TakeOutcome.isGot = true →
        (Executor.run bm s tr).2.state = ExecutorState.KILLED ∧
        (Executor.run bm s tr).1.countP ExecEvent.isPoll = 1) ∧
      (tr.any TakeOutcome.isGot = false → (Executor.run bm s tr).2 = s)) ∧
    (∀ (l : List (Option ExecutorM)) (o : Option ExecutorM),
      o ∈ pruneWeak l → ∃ e, o = some e ∧ e.state ≠ ExecutorState.KILLED) := by
  constructor
  · induction tr generalizing s with
    | nil =>
      simp [Executor.run]
    | cons t rest ih =>
      cases t with
      | got id ready =>
        refine ⟨?_, ?_, ?_⟩
        · cases ready <;>
            simp [Executor.run, h, List.countP_cons, ExecEvent.isPoll]
        · intro _
          constructor
          · cases ready <;> simp [Executor.run, h]
          · cases ready <;>
              simp [Executor.run, h, List.countP_cons, ExecEvent.isPoll]
        · intro habs
          simp [TakeOutcome.isGot] at habs
      | empty tn wn =>
        have ihs := ih s h
        have hev : ExecEvent.isPoll
            (if bm && tn == 0 then ExecEvent.yieldToRuntime
              else if wn != 0 then ExecEvent.yieldToRuntime
              else ExecEvent.waitForInterrupt) = false := by
          split
          · rfl
          · split <;> rfl
        refine ⟨?_, ?_, ?_⟩
        · simp only [Executor.run]
          simp only [List.countP_cons, hev]
          simpa using ihs.1
        · intro hany
          have hany2 : rest.any TakeOutcome.isGot = true := by
            simpa [TakeOutcome.isGot] using hany
          refine ⟨?_, ?_⟩
          · simp only [Executor.run]
            exact (ihs.2.1 hany2).1
          · simp only [Executor.run]
            simp only [List.countP_cons, hev]
            simpa using (ihs.2.1 hany2).2
        · intro hany
          have hany2 : rest.any TakeOutcome.isGot = false := by
            simpa [TakeOutcome.isGot] using hany
          simp only [Executor.run]
          exact ihs.2.2 hany2
  · intro l o ho
    have h2 := List.mem_filter.mp ho
    cases o with
    | none => simp at h2
    | some e =>
      refine ⟨e, rfl, ?_⟩
      simpa using h2.2

/-- Witness for C7: a weak executor given two available tasks polls only
the first and is killed. -/
theorem c7_witness :
    ((⟨ExecutorState.WEAK, 0⟩ : ExecutorM).state = ExecutorState.WEAK) ∧
    ([TakeOutcome.got 3 true, TakeOutcome.got 4 false].any TakeOutcome.isGot =
      true) ∧
    ((Executor.run false ⟨ExecutorState.WEAK, 0⟩
        [TakeOutcome.got 3 true, TakeOutcome.got 4 false]).2.state =
      ExecutorState.KILLED ∧
      (Executor.run false ⟨ExecutorState.WEAK, 0⟩
        [TakeOutcome.got 3 true, TakeOutcome.got 4 false]).1.countP
        ExecEvent.isPoll = 1) :=
  ⟨rfl, by decide,
    (c7_weak_executor_polls_once false
      [TakeOutcome.got 3 true, TakeOutcome.got 4 false]
      ⟨ExecutorState.WEAK, 0⟩ rfl).1.2.1 (by decide)⟩

/-- Claim C8.  When `take_task` returns `None`, the executor's next action
follows exactly this order: if the baremetal-test flag is set and
`task_num == 0`, yield to the runtime; otherwise if the runtime has any weak
executor, yield to the runtime; otherwise `wait_for_interrupt`.  In every
case the loop then continues with the rest of the schedule. -/
theorem c8_idle_branch_order (bm : Bool) (tn wn : Nat)
    (rest : List TakeOutcome) (s : ExecutorM) :
    (Executor.run bm s (TakeOutcome.empty tn wn :: rest)).2 =
      (Executor.run bm s rest).2 ∧
    (Executor.run bm s (TakeOutcome.empty tn wn :: rest)).1.tail =
      (Executor.run bm s rest).1 ∧
    ((bm && tn == 0) = true →
      (Executor.run bm s (TakeOutcome.empty tn wn :: rest)).1.head? =
        some ExecEvent.yieldToRuntime) ∧
    ((bm && tn == 0) = false → wn ≠ 0 →
      (Executor.run bm s (TakeOutcome.empty tn wn :: rest)).1.head? =
        some ExecEvent.yieldToRuntime) ∧
    ((bm && tn == 0) = false → wn = 0 →
      (Executor.run bm s (TakeOutcome.empty tn wn :: rest)).1.head? =
        some ExecEvent.waitForInterrupt) := by
  refine ⟨rfl, rfl, ?_, ?_, ?_⟩
  · intro h
    simp [Executor.run, h]
  · intro h hw
    simp [Executor.run, h, hw]
  · intro h hw
    simp [Executor.run, h, hw]

/-- Witness for C8: baremetal-test flag set and `task_num = 0` yields to the
runtime. -/
theorem c8_witness :
    ((true && (0 : Nat) == 0) = true) ∧
    (Executor.run true ⟨ExecutorState.STRONG, 0⟩
        [TakeOutcome.empty 0 0]).1.head? = some ExecEvent.yieldToRuntime :=
  ⟨by decide,
    (c8_idle_branch_order true 0 0 [] ⟨ExecutorState.STRONG, 0⟩).2.2.1
      (by decide)⟩

end PreemptiveScheduler
